import Mathlib

/-!
Verification of the Bug-Trackr repository adapter layer (the entity codecs and
repositories in src/backend/repositories/). Entities are persisted in a generic
collection store whose items carry only a name, a JSON-envelope description
string and a creation timestamp. This file embeds the three repositories
(BugRepository, CommentRepository, ActivityLogRepository) as executable Lean
functions and proves the spec's claims about them.

Modelling conventions:
* Timestamps (Python datetime, UTC) are modelled as integers (UTC instants).
  A string that parses with datetime.fromisoformat is represented by a
  dedicated constructor carrying the instant it denotes; a string that fails
  ISO-8601 parsing is represented separately. The timezone-awareness fix-up in
  the comment decoder (attaching UTC to a naive datetime) is the identity in
  this model, since instants carry no awareness flag.
* JSON values that can appear inside a parsed envelope are classified by the
  shapes this code base reads and writes: null, booleans, integers, plain
  strings, ISO-timestamp strings, lists of strings, and a catch-all for every
  other JSON value (nested objects, arrays, floats), which the decoders only
  ever treat as an unexpected shape.
* The description slot of a store item is classified by how json.loads treats
  it: absent, the empty string, a non-empty unparseable string, a string
  parsing to a JSON object, a string parsing to a non-object JSON value, or a
  non-string Python value (of which only truthiness is observable here).
* Store items are modelled after the one-level payload unwrapping the decoders
  perform: a RawItem is the dictionary holding the auto id, name, description
  and created_at keys.
* Logging is an unobserved side effect and is not modelled.
-/

/-- JSON values as produced by json.loads on an envelope, classified by the
shapes this code base distinguishes. The constructor jtime t denotes a JSON
string that datetime.fromisoformat parses to instant t; jstr s denotes a string
that fails ISO-8601 parsing; jother stands for any other JSON value (nested
object or array, float), which every decoder here treats as unexpected. -/
inductive JVal where
  | jnull : JVal
  | jbool (b : Bool) : JVal
  | jint (n : Int) : JVal
  | jstr (s : String) : JVal
  | jtime (t : Int) : JVal
  | jstrList (xs : List String) : JVal
  | jother : JVal
deriving DecidableEq

/-- Value held in the description slot of a store item, classified by how the
repositories' json.loads calls treat it. -/
inductive Desc where
  | absent : Desc
  | emptyStr : Desc
  | badStr : Desc
  | jsonObj (kvs : List (String × JVal)) : Desc
  | jsonNonObj : Desc
  | nonStr (truthy : Bool) : Desc
deriving DecidableEq

/-- Value held in the created_at slot of a store item: absent (None), already a
datetime, a string parsing to instant t, a string failing ISO-8601 parsing, or
a value of any other type. -/
inductive TimeVal where
  | absent : TimeVal
  | dt (t : Int) : TimeVal
  | isoStr (t : Int) : TimeVal
  | badStr : TimeVal
  | other : TimeVal
deriving DecidableEq

/-- A store item as seen by the decoders after the one-level payload
unwrapping: the dictionary carrying the reserved auto-id key, the name, the
description envelope and the creation timestamp. -/
structure RawItem where
  autoId : Option String
  name : Option String
  description : Desc
  created_at : TimeVal
deriving DecidableEq

/-- Errors raised by the repository layer. malformedEnvelope models the
ValueError raised when a description string fails JSON parsing (it carries the
offending item id); attributeError models Python AttributeError from calling
.get on a non-dict json.loads result; typeError models Python TypeError from
calling json.loads on a non-string; notFound and invalidArgument model the
ValueErrors of the update paths. -/
inductive Err where
  | malformedEnvelope (id : Option String) : Err
  | attributeError : Err
  | typeError : Err
  | notFound (id : String) : Err
  | invalidArgument : Err
deriving DecidableEq

/-- Modelled from the spec: the Bug domain entity (backend/models/bug_model.py
is not under src/). Fields are those the repository reads and writes; the
status, priority and severity enums are opaque string-valued types per the
spec. -/
structure Bug where
  id : Option String
  title : String
  description : String
  projectId : String
  reportedBy : String
  assignedTo : Option String
  status : String
  priority : String
  severity : String
  tags : List String
  validated : Bool
  createdAt : Int
  updatedAt : Int
deriving DecidableEq

/-- Modelled from the spec: the Comment domain entity (backend/models/
bug_model.py is not under src/). -/
structure Comment where
  id : Option String
  bugId : String
  authorId : String
  message : String
  createdAt : Int
deriving DecidableEq

/-- Modelled from the spec: the ActivityLog domain entity (backend/models/
bug_model.py is not under src/). -/
structure ActivityLog where
  id : Option String
  bugId : String
  bugTitle : String
  projectId : String
  projectName : String
  action : String
  performedBy : String
  performedByName : String
  assignedToName : Option String
  newStatus : Option String
  timestamp : Int
deriving DecidableEq

/-- Python dict lookup data[k], returning the stored JSON value when the key is
present (the value may be jnull, i.e. Python None). -/
def dictGet (kvs : List (String × JVal)) (k : String) : Option JVal :=
  kvs.lookup k

/-- Textual content of a string whose ISO-8601 parse yields instant t; the
model's stand-in for datetime.isoformat output. -/
def isoRender (t : Int) : String := toString t

/-- Extraction data.get(k, d) for a string-typed field, followed by entity
construction. Modelled from the spec for the unexpected-shape case: the spec
gives every field a type and a default, so a present value of an unexpected
shape is normalized to the default (no claim depends on this corner). -/
def getStrD (kvs : List (String × JVal)) (k : String) (d : String) : String :=
  match dictGet kvs k with
  | some (.jstr s) => s
  | some (.jtime t) => isoRender t
  | _ => d

/-- Extraction data.get(k) for an optional string field: a missing key and a
JSON null both yield Python None, hence none. -/
def getOptStr (kvs : List (String × JVal)) (k : String) : Option String :=
  match dictGet kvs k with
  | some (.jstr s) => some s
  | some (.jtime t) => some (isoRender t)
  | _ => none

/-- Extraction data.get(k, []) for the tags field. -/
def getListD (kvs : List (String × JVal)) (k : String) : List String :=
  match dictGet kvs k with
  | some (.jstrList xs) => xs
  | _ => []

/-- Extraction data.get(k, d) for a boolean field. -/
def getBoolD (kvs : List (String × JVal)) (k : String) (d : Bool) : Bool :=
  match dictGet kvs k with
  | some (.jbool b) => b
  | _ => d

/-- Robust created_at parsing shared by all three decoders: absent, bad-ISO
strings and unexpected types fall back to the current time now. -/
def parseCreatedAt (now : Int) : TimeVal → Int
  | .absent => now
  | .dt t => t
  | .isoStr t => t
  | .badStr => now
  | .other => now

/-- Parsing of the updatedAt envelope value in the bug decoder: absent (or
JSON null) falls back to createdAt, an ISO string parses, a bad-ISO string or
a value of unexpected type falls back to createdAt. The isinstance-datetime
branch of the source is unreachable for json.loads output and has no model
counterpart. -/
def parseUpdatedAt (createdAt : Int) : Option JVal → Int
  | some (.jtime t) => t
  | _ => createdAt

/-- Shared single-item handling of the description slot, mirroring
item.get with default, the isinstance-str test, json.loads and the later
data.get calls: an absent slot defaults to the literal two-brace object text
and parses to the empty dict; an empty or unparseable string raises the
malformed-JSON ValueError carrying the item id; a string parsing to a JSON
object yields its entries; a string parsing to a non-object value makes the
subsequent data.get raise AttributeError; a non-string value is replaced by
the empty dict. -/
def parseDescription (id : Option String) : Desc → Except Err (List (String × JVal))
  | .absent => .ok []
  | .emptyStr => .error (.malformedEnvelope id)
  | .badStr => .error (.malformedEnvelope id)
  | .jsonObj kvs => .ok kvs
  | .jsonNonObj => .error .attributeError
  | .nonStr _ => .ok []

/-- Fields sent to the store when creating an item: name, description and
created_at, as built by the encoders. -/
structure ItemFields where
  name : String
  description : Desc
  created_at : TimeVal
deriving DecidableEq

/-- Encoding of an optional string into the JSON envelope: json.dumps writes
Python None as JSON null. -/
def optStrVal : Option String → JVal
  | none => .jnull
  | some s => .jstr s

namespace BugRepository

/-- JSON envelope written by bug_to_collection_item: the type discriminator
plus every bug field other than title and createdAt. -/
def bugEnvelope (bug : Bug) : List (String × JVal) :=
  [("type", .jstr "bug"),
   ("description", .jstr bug.description),
   ("status", .jstr bug.status),
   ("priority", .jstr bug.priority),
   ("severity", .jstr bug.severity),
   ("projectId", .jstr bug.projectId),
   ("reportedBy", .jstr bug.reportedBy),
   ("assignedTo", optStrVal bug.assignedTo),
   ("tags", .jstrList bug.tags),
   ("validated", .jbool bug.validated),
   ("updatedAt", .jtime bug.updatedAt)]

/-- Embedding of BugRepository._bug_to_collection_item: title goes in name,
every other field is serialized as JSON in description, createdAt is written
as an ISO string. -/
def bug_to_collection_item (bug : Bug) : ItemFields :=
  { name := bug.title
    description := .jsonObj (bugEnvelope bug)
    created_at := .isoStr bug.createdAt }

/-- Embedding of BugRepository._collection_item_to_bug. The parameter now is
the decode-time clock used by the timestamp fallbacks. -/
def collection_item_to_bug (now : Int) (item : RawItem) : Except Err Bug := do
  let data ← parseDescription item.autoId item.description
  let createdAt := parseCreatedAt now item.created_at
  .ok { id := item.autoId
        title := item.name.getD ""
        description := getStrD data "description" ""
        projectId := getStrD data "projectId" ""
        reportedBy := getStrD data "reportedBy" ""
        assignedTo := getOptStr data "assignedTo"
        status := getStrD data "status" "Open"
        priority := getStrD data "priority" "Medium"
        severity := getStrD data "severity" "Minor"
        tags := getListD data "tags"
        validated := getBoolD data "validated" false
        createdAt := createdAt
        updatedAt := parseUpdatedAt createdAt (dictGet data "updatedAt") }

end BugRepository

instance {ε α : Type} [DecidableEq ε] [DecidableEq α] : DecidableEq (Except ε α) :=
  fun x y =>
    match x, y with
    | .ok a, .ok b =>
        if h : a = b then .isTrue (by rw [h]) else .isFalse (by simp [h])
    | .error a, .error b =>
        if h : a = b then .isTrue (by rw [h]) else .isFalse (by simp [h])
    | .ok _, .error _ => .isFalse (fun hc => by cases hc)
    | .error _, .ok _ => .isFalse (fun hc => by cases hc)

/-- View of create-time fields as the item dictionary the decoder receives,
with no auto id assigned yet. -/
def fieldsToItem (f : ItemFields) : RawItem :=
  { autoId := none
    name := some f.name
    description := f.description
    created_at := f.created_at }

namespace CommentRepository

/-- JSON envelope written by comment_to_collection_item. -/
def commentEnvelope (c : Comment) : List (String × JVal) :=
  [("type", .jstr "comment"),
   ("bugId", .jstr c.bugId),
   ("authorId", .jstr c.authorId),
   ("message", .jstr c.message)]

/-- Embedding of CommentRepository._comment_to_collection_item: a synthesized
display label goes in name, all comment data as JSON in description, createdAt
as an ISO string. -/
def comment_to_collection_item (c : Comment) : ItemFields :=
  { name := "Comment by " ++ c.authorId
    description := .jsonObj (commentEnvelope c)
    created_at := .isoStr c.createdAt }

/-- Embedding of CommentRepository._collection_item_to_comment. The
timezone-awareness fix-up after fromisoformat is the identity in this model
(timestamps are UTC instants). -/
def collection_item_to_comment (now : Int) (item : RawItem) : Except Err Comment := do
  let data ← parseDescription item.autoId item.description
  .ok { id := item.autoId
        bugId := getStrD data "bugId" ""
        authorId := getStrD data "authorId" ""
        message := getStrD data "message" ""
        createdAt := parseCreatedAt now item.created_at }

end CommentRepository

namespace ActivityLogRepository

/-- JSON envelope written by activity_log_to_collection_item. -/
def activityLogEnvelope (a : ActivityLog) : List (String × JVal) :=
  [("type", .jstr "activity_log"),
   ("bugId", .jstr a.bugId),
   ("bugTitle", .jstr a.bugTitle),
   ("projectId", .jstr a.projectId),
   ("projectName", .jstr a.projectName),
   ("action", .jstr a.action),
   ("performedBy", .jstr a.performedBy),
   ("performedByName", .jstr a.performedByName),
   ("assignedToName", optStrVal a.assignedToName),
   ("newStatus", optStrVal a.newStatus)]

/-- Embedding of ActivityLogRepository._activity_log_to_collection_item: a
synthesized display label goes in name, all log data as JSON in description,
the timestamp as an ISO string in created_at. -/
def activity_log_to_collection_item (a : ActivityLog) : ItemFields :=
  { name := a.performedByName ++ " " ++ a.action
    description := .jsonObj (activityLogEnvelope a)
    created_at := .isoStr a.timestamp }

/-- Embedding of ActivityLogRepository._collection_item_to_activity_log. -/
def collection_item_to_activity_log (now : Int) (item : RawItem) :
    Except Err ActivityLog := do
  let data ← parseDescription item.autoId item.description
  .ok { id := item.autoId
        bugId := getStrD data "bugId" ""
        bugTitle := getStrD data "bugTitle" ""
        projectId := getStrD data "projectId" ""
        projectName := getStrD data "projectName" ""
        action := getStrD data "action" ""
        performedBy := getStrD data "performedBy" ""
        performedByName := getStrD data "performedByName" ""
        assignedToName := getOptStr data "assignedToName"
        newStatus := getOptStr data "newStatus"
        timestamp := parseCreatedAt now item.created_at }

end ActivityLogRepository

/-- Sequential filtering with a fallible predicate, mirroring the Python
for-loops that build filtered_items and may raise while inspecting an item. -/
def filterE {α : Type} (p : α → Except Err Bool) : List α → Except Err (List α)
  | [] => .ok []
  | x :: xs => do
      let keep ← p x
      let rest ← filterE p xs
      .ok (if keep then x :: rest else rest)

/-- Sequential decoding of a list, mirroring the Python list comprehensions
over filtered_items in which a raised decode error propagates. -/
def mapE {α β : Type} (f : α → Except Err β) : List α → Except Err (List β)
  | [] => .ok []
  | x :: xs => do
      let y ← f x
      let ys ← mapE f xs
      .ok (y :: ys)

/-- Exact-match filter on one envelope field: no caller-supplied value means
no constraint, otherwise the envelope value must equal the supplied string. -/
def filterMatch (arg : Option String) (kvs : List (String × JVal)) (k : String) : Bool :=
  match arg with
  | none => true
  | some a => decide (dictGet kvs k = some (.jstr a))

namespace BugRepository

/-- Per-item test of the get_all loop: skip falsy descriptions; a non-string
truthy description is replaced by the empty dict (isinstance guard) and then
fails the type check; an unparseable string is skipped (JSONDecodeError is
caught); a string parsing to a non-object raises AttributeError at the
data.get call; an object is kept when its type tag is the bug discriminator
and every supplied filter matches. -/
def keepItem (project_id status assigned_to : Option String) (item : RawItem) :
    Except Err Bool :=
  match item.description with
  | .absent => .ok false
  | .emptyStr => .ok false
  | .badStr => .ok false
  | .nonStr _ => .ok false
  | .jsonNonObj => .error .attributeError
  | .jsonObj kvs =>
      if dictGet kvs "type" = some (.jstr "bug") then
        .ok (filterMatch project_id kvs "projectId" &&
             filterMatch status kvs "status" &&
             filterMatch assigned_to kvs "assignedTo")
      else .ok false

/-- Embedding of BugRepository.get_all over the store's get_all_items result:
filter in memory, then decode every kept item; no sorting. -/
def get_all (now : Int) (items : List RawItem)
    (project_id status assigned_to : Option String) : Except Err (List Bug) := do
  let filtered ← filterE (keepItem project_id status assigned_to) items
  mapE (collection_item_to_bug now) filtered

end BugRepository

namespace CommentRepository

/-- Per-item test of the get_by_bug_id loop. Unlike the bug repository, the
json.loads call here has no isinstance guard, so a truthy non-string
description raises TypeError; a string parsing to a non-object raises
AttributeError at data.get. -/
def keepItem (bug_id : String) (item : RawItem) : Except Err Bool :=
  match item.description with
  | .absent => .ok false
  | .emptyStr => .ok false
  | .badStr => .ok false
  | .nonStr truthy => if truthy then .error .typeError else .ok false
  | .jsonNonObj => .error .attributeError
  | .jsonObj kvs =>
      .ok (decide (dictGet kvs "type" = some (.jstr "comment")) &&
           decide (dictGet kvs "bugId" = some (.jstr bug_id)))

/-- Embedding of CommentRepository.get_by_bug_id: filter in memory, decode,
then stable-sort ascending by createdAt. -/
def get_by_bug_id (now : Int) (items : List RawItem) (bug_id : String) :
    Except Err (List Comment) := do
  let filtered ← filterE (keepItem bug_id) items
  let comments ← mapE (collection_item_to_comment now) filtered
  .ok (comments.mergeSort (fun a b => decide (a.createdAt ≤ b.createdAt)))

end CommentRepository

namespace ActivityLogRepository

/-- Per-item test of the get_by_bug_id loop: like the comment repository the
json.loads call has no isinstance guard. -/
def keepItemByBug (bug_id : String) (item : RawItem) : Except Err Bool :=
  match item.description with
  | .absent => .ok false
  | .emptyStr => .ok false
  | .badStr => .ok false
  | .nonStr truthy => if truthy then .error .typeError else .ok false
  | .jsonNonObj => .error .attributeError
  | .jsonObj kvs =>
      .ok (decide (dictGet kvs "type" = some (.jstr "activity_log")) &&
           decide (dictGet kvs "bugId" = some (.jstr bug_id)))

/-- Per-item test of the get_all loop. -/
def keepItemAll (item : RawItem) : Except Err Bool :=
  match item.description with
  | .absent => .ok false
  | .emptyStr => .ok false
  | .badStr => .ok false
  | .nonStr truthy => if truthy then .error .typeError else .ok false
  | .jsonNonObj => .error .attributeError
  | .jsonObj kvs => .ok (decide (dictGet kvs "type" = some (.jstr "activity_log")))

/-- Embedding of ActivityLogRepository.get_by_bug_id: filter in memory,
decode, then stable-sort descending by timestamp (newest first). -/
def get_by_bug_id (now : Int) (items : List RawItem) (bug_id : String) :
    Except Err (List ActivityLog) := do
  let filtered ← filterE (keepItemByBug bug_id) items
  let logs ← mapE (collection_item_to_activity_log now) filtered
  .ok (logs.mergeSort (fun a b => decide (b.timestamp ≤ a.timestamp)))

/-- Embedding of ActivityLogRepository.get_all: filter in memory, decode, then
stable-sort descending by timestamp (newest first). -/
def get_all (now : Int) (items : List RawItem) : Except Err (List ActivityLog) := do
  let filtered ← filterE keepItemAll items
  let logs ← mapE (collection_item_to_activity_log now) filtered
  .ok (logs.mergeSort (fun a b => decide (b.timestamp ≤ a.timestamp)))

end ActivityLogRepository

/-- Modelled from the spec: the store state of the generic collection store
client (CollectionDBService is not under src/), a map from server-assigned
item ids to items. -/
abbrev Store := List (String × RawItem)

/-- Partial fields accepted by the store client's updateItem: any subset of
name, description and created_at. -/
structure UpdateFields where
  name : Option String
  description : Option Desc
  created_at : Option TimeVal
deriving DecidableEq

/-- Store-client methods a repository operation may invoke, recorded as a
trace. -/
inductive StoreCall where
  | getItemById (id : String) : StoreCall
  | updateItem (id : String) (fields : UpdateFields) : StoreCall
  | getAllItems : StoreCall
  | createItem (fields : ItemFields) : StoreCall
  | deleteItem (id : String) : StoreCall
deriving DecidableEq

/-- Modelled from the spec: updateItem applies the supplied partial fields to
the stored item, leaving the other fields unchanged. -/
def applyUpdate (item : RawItem) (u : UpdateFields) : RawItem :=
  { item with
      name := match u.name with
              | some n => some n
              | none => item.name
      description := u.description.getD item.description
      created_at := u.created_at.getD item.created_at }

/-- Modelled from the spec: the store client's updateItem primitive, returning
the new store state and the updated item (none when the id is unknown). -/
def storeUpdate (st : Store) (id : String) (u : UpdateFields) :
    Store × Option RawItem :=
  match st.lookup id with
  | none => (st, none)
  | some it =>
      (st.map (fun p => if p.1 = id then (id, applyUpdate it u) else p),
       some (applyUpdate it u))

namespace BugRepository

/-- Embedding of BugRepository.update_status as a state-and-trace function:
fetch the current bug (NotFound when absent, decode errors propagate), set
status and updatedAt, re-encode the full envelope, send only the description
field to updateItem, and decode the store's response. -/
def update_status (now : Int) (st : Store) (bug_id : String) (status : String)
    (updated_at : Int) : Except Err Bug × Store × List StoreCall :=
  match st.lookup bug_id with
  | none => (.error (.notFound bug_id), st, [.getItemById bug_id])
  | some item =>
    match collection_item_to_bug now item with
    | .error e => (.error e, st, [.getItemById bug_id])
    | .ok current =>
        let newBug := { current with status := status, updatedAt := updated_at }
        let item_data := bug_to_collection_item newBug
        let updates : UpdateFields :=
          { name := none, description := some item_data.description, created_at := none }
        let res := storeUpdate st bug_id updates
        let calls := [StoreCall.getItemById bug_id, StoreCall.updateItem bug_id updates]
        match res.2 with
        | none => (.error (.notFound bug_id), res.1, calls)
        | some updated_item => (collection_item_to_bug now updated_item, res.1, calls)

/-- Embedding of BugRepository.update_assignment, same read-modify-write shape
as update_status with the assignedTo aspect. -/
def update_assignment (now : Int) (st : Store) (bug_id : String)
    (assigned_to : String) (updated_at : Int) :
    Except Err Bug × Store × List StoreCall :=
  match st.lookup bug_id with
  | none => (.error (.notFound bug_id), st, [.getItemById bug_id])
  | some item =>
    match collection_item_to_bug now item with
    | .error e => (.error e, st, [.getItemById bug_id])
    | .ok current =>
        let newBug := { current with assignedTo := some assigned_to, updatedAt := updated_at }
        let item_data := bug_to_collection_item newBug
        let updates : UpdateFields :=
          { name := none, description := some item_data.description, created_at := none }
        let res := storeUpdate st bug_id updates
        let calls := [StoreCall.getItemById bug_id, StoreCall.updateItem bug_id updates]
        match res.2 with
        | none => (.error (.notFound bug_id), res.1, calls)
        | some updated_item => (collection_item_to_bug now updated_item, res.1, calls)

/-- Embedding of BugRepository.update_validation, same read-modify-write shape
as update_status with the validated aspect. -/
def update_validation (now : Int) (st : Store) (bug_id : String)
    (validated : Bool) (updated_at : Int) :
    Except Err Bug × Store × List StoreCall :=
  match st.lookup bug_id with
  | none => (.error (.notFound bug_id), st, [.getItemById bug_id])
  | some item =>
    match collection_item_to_bug now item with
    | .error e => (.error e, st, [.getItemById bug_id])
    | .ok current =>
        let newBug := { current with validated := validated, updatedAt := updated_at }
        let item_data := bug_to_collection_item newBug
        let updates : UpdateFields :=
          { name := none, description := some item_data.description, created_at := none }
        let res := storeUpdate st bug_id updates
        let calls := [StoreCall.getItemById bug_id, StoreCall.updateItem bug_id updates]
        match res.2 with
        | none => (.error (.notFound bug_id), res.1, calls)
        | some updated_item => (collection_item_to_bug now updated_item, res.1, calls)

end BugRepository

/-- Modelled from the spec: a named field assignment that setattr can apply to
a Bug (the spec replaces runtime name lookup with an explicit allow-list of
mutable field setters per entity kind). -/
inductive BugFieldSet where
  | title (v : String) : BugFieldSet
  | description (v : String) : BugFieldSet
  | projectId (v : String) : BugFieldSet
  | reportedBy (v : String) : BugFieldSet
  | assignedTo (v : Option String) : BugFieldSet
  | status (v : String) : BugFieldSet
  | priority (v : String) : BugFieldSet
  | severity (v : String) : BugFieldSet
  | tags (v : List String) : BugFieldSet
  | validated (v : Bool) : BugFieldSet
  | createdAt (v : Int) : BugFieldSet
  | updatedAt (v : Int) : BugFieldSet
deriving DecidableEq

/-- One entry of the updates dictionary passed to update_fields: either a
known Bug attribute with its new value, or an unknown name, which hasattr
rejects and the loop ignores (logged, not fatal). -/
inductive UpdEntry where
  | known (f : BugFieldSet) : UpdEntry
  | unknown (name : String) : UpdEntry
deriving DecidableEq

/-- Application of one setattr call to the in-memory bug. -/
def setBugField (b : Bug) : BugFieldSet → Bug
  | .title v => { b with title := v }
  | .description v => { b with description := v }
  | .projectId v => { b with projectId := v }
  | .reportedBy v => { b with reportedBy := v }
  | .assignedTo v => { b with assignedTo := v }
  | .status v => { b with status := v }
  | .priority v => { b with priority := v }
  | .severity v => { b with severity := v }
  | .tags v => { b with tags := v }
  | .validated v => { b with validated := v }
  | .createdAt v => { b with createdAt := v }
  | .updatedAt v => { b with updatedAt := v }

/-- The update_fields loop over the updates dictionary: apply known fields in
order, ignore unknown names. -/
def applyBugUpdates (b : Bug) (us : List UpdEntry) : Bug :=
  us.foldl (fun acc u =>
    match u with
    | .known f => setBugField acc f
    | .unknown _ => acc) b

namespace BugRepository

/-- Embedding of BugRepository.update_fields: reject an empty update set
before any store interaction, then the same read-modify-write shape as the
aspect updates, applying every known field from the updates dictionary. -/
def update_fields (now : Int) (st : Store) (bug_id : String)
    (updates : List UpdEntry) : Except Err Bug × Store × List StoreCall :=
  match updates with
  | [] => (.error .invalidArgument, st, [])
  | _ :: _ =>
    match st.lookup bug_id with
    | none => (.error (.notFound bug_id), st, [.getItemById bug_id])
    | some item =>
      match collection_item_to_bug now item with
      | .error e => (.error e, st, [.getItemById bug_id])
      | .ok current =>
          let newBug := applyBugUpdates current updates
          let item_data := bug_to_collection_item newBug
          let collection_updates : UpdateFields :=
            { name := none, description := some item_data.description, created_at := none }
          let res := storeUpdate st bug_id collection_updates
          let calls := [StoreCall.getItemById bug_id,
                        StoreCall.updateItem bug_id collection_updates]
          match res.2 with
          | none => (.error (.notFound bug_id), res.1, calls)
          | some updated_item => (collection_item_to_bug now updated_item, res.1, calls)

end BugRepository

/-- Names of the mutable Bug attributes, used to state which fields an
update touches. -/
inductive BugFieldName where
  | title : BugFieldName
  | description : BugFieldName
  | projectId : BugFieldName
  | reportedBy : BugFieldName
  | assignedTo : BugFieldName
  | status : BugFieldName
  | priority : BugFieldName
  | severity : BugFieldName
  | tags : BugFieldName
  | validated : BugFieldName
  | createdAt : BugFieldName
  | updatedAt : BugFieldName
deriving DecidableEq

/-- Untyped view of one Bug field value, for frame statements quantifying over
field names. -/
inductive FieldVal where
  | vs (v : String) : FieldVal
  | vos (v : Option String) : FieldVal
  | vl (v : List String) : FieldVal
  | vb (v : Bool) : FieldVal
  | vt (v : Int) : FieldVal
deriving DecidableEq

/-- Projection of a Bug field by name. -/
def Bug.fieldVal (b : Bug) : BugFieldName → FieldVal
  | .title => .vs b.title
  | .description => .vs b.description
  | .projectId => .vs b.projectId
  | .reportedBy => .vs b.reportedBy
  | .assignedTo => .vos b.assignedTo
  | .status => .vs b.status
  | .priority => .vs b.priority
  | .severity => .vs b.severity
  | .tags => .vl b.tags
  | .validated => .vb b.validated
  | .createdAt => .vt b.createdAt
  | .updatedAt => .vt b.updatedAt

/-- Name of the field a setter assigns. -/
def BugFieldSet.nameOf : BugFieldSet → BugFieldName
  | .title _ => .title
  | .description _ => .description
  | .projectId _ => .projectId
  | .reportedBy _ => .reportedBy
  | .assignedTo _ => .assignedTo
  | .status _ => .status
  | .priority _ => .priority
  | .severity _ => .severity
  | .tags _ => .tags
  | .validated _ => .validated
  | .createdAt _ => .createdAt
  | .updatedAt _ => .updatedAt

/-- Names of the known fields an updates dictionary assigns. -/
def updNames (us : List UpdEntry) : List BugFieldName :=
  us.filterMap (fun u =>
    match u with
    | .known f => some f.nameOf
    | .unknown _ => none)

theorem exceptBind_ok {ε α β : Type} (a : α) (f : α → Except ε β) :
    (Except.ok a >>= f) = f a := rfl

theorem exceptBind_error {ε α β : Type} (e : ε) (f : α → Except ε β) :
    (Except.error e >>= f) = .error e := rfl

theorem exceptBind_eq_ok {ε α β : Type} {e : Except ε α} {f : α → Except ε β}
    {b : β} (h : (e >>= f) = .ok b) : ∃ a, e = .ok a ∧ f a = .ok b := by
  cases e with
  | error err => cases h
  | ok a => exact ⟨a, rfl, h⟩

theorem filterE_mem {α : Type} {p : α → Except Err Bool} :
    ∀ {xs ys : List α}, filterE p xs = .ok ys → ∀ {a : α}, a ∈ ys →
      a ∈ xs ∧ p a = .ok true := by
  intro xs
  induction xs with
  | nil => intro ys h a ha; cases h; cases ha
  | cons x xs ih =>
      intro ys h a ha
      rw [filterE] at h
      cases hp : p x with
      | error e => rw [hp] at h; cases h
      | ok k =>
          rw [hp, exceptBind_ok] at h
          cases hr : filterE p xs with
          | error e => rw [hr] at h; cases h
          | ok rest =>
              rw [hr, exceptBind_ok] at h
              cases h
              cases k with
              | true =>
                  rcases List.mem_cons.mp ha with rfl | hmem
                  · exact ⟨List.mem_cons_self _ _, hp⟩
                  · rcases ih hr hmem with ⟨h1, h2⟩
                    exact ⟨List.mem_cons_of_mem _ h1, h2⟩
              | false =>
                  rcases ih hr ha with ⟨h1, h2⟩
                  exact ⟨List.mem_cons_of_mem _ h1, h2⟩

theorem mapE_mem {α β : Type} {f : α → Except Err β} :
    ∀ {xs : List α} {ys : List β}, mapE f xs = .ok ys → ∀ {b : β}, b ∈ ys →
      ∃ a, a ∈ xs ∧ f a = .ok b := by
  intro xs
  induction xs with
  | nil => intro ys h b hb; cases h; cases hb
  | cons x xs ih =>
      intro ys h b hb
      rw [mapE] at h
      cases hy : f x with
      | error e => rw [hy] at h; cases h
      | ok y =>
          rw [hy, exceptBind_ok] at h
          cases hr : mapE f xs with
          | error e => rw [hr] at h; cases h
          | ok rest =>
              rw [hr, exceptBind_ok] at h
              cases h
              rcases List.mem_cons.mp hb with rfl | hmem
              · exact ⟨x, List.mem_cons_self _ _, hy⟩
              · rcases ih hr hmem with ⟨a, h1, h2⟩
                exact ⟨a, List.mem_cons_of_mem _ h1, h2⟩

theorem filterE_mapE_ok {α β : Type} {p : α → Except Err Bool}
    {f : α → Except Err β} :
    ∀ (xs : List α),
      (∀ a ∈ xs, p a = .ok false ∨ (p a = .ok true ∧ ∃ b, f a = .ok b)) →
      ∃ ys zs, filterE p xs = .ok ys ∧ mapE f ys = .ok zs ∧
        zs.length = xs.countP (fun a => p a == .ok true) := by
  intro xs
  induction xs with
  | nil => exact fun _ => ⟨[], [], rfl, rfl, by simp⟩
  | cons x xs ih =>
      intro h
      obtain ⟨ys, zs, h1, h2, h3⟩ := ih (fun a ha => h a (List.mem_cons_of_mem _ ha))
      rcases h x (List.mem_cons_self _ _) with hfalse | ⟨htrue, b, hb⟩
      · refine ⟨ys, zs, ?_, h2, ?_⟩
        · rw [filterE, hfalse, exceptBind_ok, h1, exceptBind_ok]; simp
        · simp [List.countP_cons, hfalse, h3]
      · refine ⟨x :: ys, b :: zs, ?_, ?_, ?_⟩
        · rw [filterE, htrue, exceptBind_ok, h1, exceptBind_ok]; simp
        · rw [mapE, hb, exceptBind_ok, h2, exceptBind_ok]
        · simp [List.countP_cons, htrue, h3]

theorem keepItem_bug_type {project_id status assigned_to : Option String}
    {i : RawItem} (h : BugRepository.keepItem project_id status assigned_to i = .ok true) :
    ∃ kvs, i.description = .jsonObj kvs ∧ dictGet kvs "type" = some (.jstr "bug") := by
  cases hd : i.description with
  | jsonObj kvs =>
      refine ⟨kvs, rfl, ?_⟩
      simp only [BugRepository.keepItem, hd] at h
      by_cases hc : dictGet kvs "type" = some (.jstr "bug")
      · exact hc
      · rw [if_neg hc] at h; cases h
  | absent => simp [BugRepository.keepItem, hd] at h
  | emptyStr => simp [BugRepository.keepItem, hd] at h
  | badStr => simp [BugRepository.keepItem, hd] at h
  | jsonNonObj => simp [BugRepository.keepItem, hd] at h
  | nonStr truthy => simp [BugRepository.keepItem, hd] at h

theorem keepItemAll_type {i : RawItem}
    (h : ActivityLogRepository.keepItemAll i = .ok true) :
    ∃ kvs, i.description = .jsonObj kvs ∧
      dictGet kvs "type" = some (.jstr "activity_log") := by
  cases hd : i.description with
  | jsonObj kvs =>
      refine ⟨kvs, rfl, ?_⟩
      simp only [ActivityLogRepository.keepItemAll, hd] at h
      injection h with h
      exact of_decide_eq_true h
  | absent => simp [ActivityLogRepository.keepItemAll, hd] at h
  | emptyStr => simp [ActivityLogRepository.keepItemAll, hd] at h
  | badStr => simp [ActivityLogRepository.keepItemAll, hd] at h
  | jsonNonObj => simp [ActivityLogRepository.keepItemAll, hd] at h
  | nonStr truthy =>
      cases truthy <;> simp [ActivityLogRepository.keepItemAll, hd] at h

theorem setBugField_frame (b : Bug) (g : BugFieldSet) (f : BugFieldName)
    (h : f ≠ g.nameOf) : (setBugField b g).fieldVal f = b.fieldVal f := by
  cases g <;> cases f <;>
    simp_all [setBugField, Bug.fieldVal, BugFieldSet.nameOf]

theorem applyBugUpdates_frame :
    ∀ (us : List UpdEntry) (b : Bug) (f : BugFieldName), f ∉ updNames us →
      (applyBugUpdates b us).fieldVal f = b.fieldVal f := by
  intro us
  induction us with
  | nil => intro b f _; rfl
  | cons u us ih =>
      intro b f h
      cases u with
      | known g =>
          rw [show updNames (.known g :: us) = g.nameOf :: updNames us from rfl] at h
          have h1 : f ≠ g.nameOf := fun hc => h (hc ▸ List.mem_cons_self _ _)
          have h2 : f ∉ updNames us := fun hc => h (List.mem_cons_of_mem _ hc)
          have hstep : applyBugUpdates b (.known g :: us) =
              applyBugUpdates (setBugField b g) us := rfl
          rw [hstep, ih _ _ h2, setBugField_frame _ _ _ h1]
      | unknown n =>
          rw [show updNames (.unknown n :: us) = updNames us from rfl] at h
          have hstep : applyBugUpdates b (.unknown n :: us) =
              applyBugUpdates b us := rfl
          rw [hstep, ih _ _ h]

/-- C1: for every entity kind (Bug, Comment, ActivityLog) and every entity
whose optional fields are present or absent in any combination, decoding the
generic item produced by encoding that entity reproduces every documented
field of the entity exactly. Entities are encoded before the store assigns an
id (spec §3: id is absent before creation and never stored in the envelope),
so the round-trip is stated for entities with no id. -/
theorem c1_encode_decode_roundtrip :
    (∀ (now : Int) (bug : Bug), bug.id = none →
        BugRepository.collection_item_to_bug now
          (fieldsToItem (BugRepository.bug_to_collection_item bug)) = .ok bug) ∧
    (∀ (now : Int) (c : Comment), c.id = none →
        CommentRepository.collection_item_to_comment now
          (fieldsToItem (CommentRepository.comment_to_collection_item c)) = .ok c) ∧
    (∀ (now : Int) (a : ActivityLog), a.id = none →
        ActivityLogRepository.collection_item_to_activity_log now
          (fieldsToItem (ActivityLogRepository.activity_log_to_collection_item a)) =
          .ok a) := by
  refine ⟨?_, ?_, ?_⟩
  · intro now bug h
    obtain ⟨id, title, description, projectId, reportedBy, assignedTo, status,
      priority, severity, tags, validated, createdAt, updatedAt⟩ := bug
    cases h
    cases assignedTo <;> rfl
  · intro now c h
    obtain ⟨id, bugId, authorId, message, createdAt⟩ := c
    cases h
    rfl
  · intro now a h
    obtain ⟨id, bugId, bugTitle, projectId, projectName, action, performedBy,
      performedByName, assignedToName, newStatus, timestamp⟩ := a
    cases h
    cases assignedToName <;> cases newStatus <;> rfl

/-- Witness for C1: the round-trip evaluated at one concrete entity of each
kind, with optional fields both present and absent. -/
theorem c1_encode_decode_roundtrip_witness :
    BugRepository.collection_item_to_bug 0
        (fieldsToItem (BugRepository.bug_to_collection_item
          { id := none, title := "t", description := "d", projectId := "p",
            reportedBy := "r", assignedTo := some "u", status := "Open",
            priority := "High", severity := "Major", tags := ["a", "b"],
            validated := true, createdAt := 5, updatedAt := 9 })) =
      .ok { id := none, title := "t", description := "d", projectId := "p",
            reportedBy := "r", assignedTo := some "u", status := "Open",
            priority := "High", severity := "Major", tags := ["a", "b"],
            validated := true, createdAt := 5, updatedAt := 9 } ∧
    CommentRepository.collection_item_to_comment 0
        (fieldsToItem (CommentRepository.comment_to_collection_item
          { id := none, bugId := "b", authorId := "u", message := "m",
            createdAt := 4 })) =
      .ok { id := none, bugId := "b", authorId := "u", message := "m",
            createdAt := 4 } ∧
    ActivityLogRepository.collection_item_to_activity_log 0
        (fieldsToItem (ActivityLogRepository.activity_log_to_collection_item
          { id := none, bugId := "b", bugTitle := "t", projectId := "p",
            projectName := "n", action := "created", performedBy := "u",
            performedByName := "U", assignedToName := none, newStatus := some "Open",
            timestamp := 3 })) =
      .ok { id := none, bugId := "b", bugTitle := "t", projectId := "p",
            projectName := "n", action := "created", performedBy := "u",
            performedByName := "U", assignedToName := none, newStatus := some "Open",
            timestamp := 3 } :=
  ⟨c1_encode_decode_roundtrip.1 0 _ rfl,
   c1_encode_decode_roundtrip.2.1 0 _ rfl,
   c1_encode_decode_roundtrip.2.2 0 _ rfl⟩

/-- C2: for every shared collection containing items of different kinds, the
list operation of kind A (BugRepository.get_all, ActivityLogRepository.get_all)
returns only entities decoded from items whose envelope type field equals A's
fixed discriminator string, regardless of how the items are interleaved. -/
theorem c2_type_discrimination :
    (∀ (now : Int) (items : List RawItem)
        (project_id status assigned_to : Option String) (l : List Bug),
        BugRepository.get_all now items project_id status assigned_to = .ok l →
        ∀ b ∈ l, ∃ i, i ∈ items ∧
          (∃ kvs, i.description = .jsonObj kvs ∧
            dictGet kvs "type" = some (.jstr "bug")) ∧
          BugRepository.collection_item_to_bug now i = .ok b) ∧
    (∀ (now : Int) (items : List RawItem) (l : List ActivityLog),
        ActivityLogRepository.get_all now items = .ok l →
        ∀ a ∈ l, ∃ i, i ∈ items ∧
          (∃ kvs, i.description = .jsonObj kvs ∧
            dictGet kvs "type" = some (.jstr "activity_log")) ∧
          ActivityLogRepository.collection_item_to_activity_log now i = .ok a) := by
  constructor
  · intro now items project_id status assigned_to l h b hb
    simp only [BugRepository.get_all] at h
    obtain ⟨ys, h1, h2⟩ := exceptBind_eq_ok h
    obtain ⟨i, hmem, hdec⟩ := mapE_mem h2 hb
    obtain ⟨hin, hkeep⟩ := filterE_mem h1 hmem
    exact ⟨i, hin, keepItem_bug_type hkeep, hdec⟩
  · intro now items l h a ha
    simp only [ActivityLogRepository.get_all] at h
    obtain ⟨ys, h1, h2⟩ := exceptBind_eq_ok h
    obtain ⟨zs, h3, h4⟩ := exceptBind_eq_ok h2
    injection h4 with h4
    subst h4
    have ha2 : a ∈ zs := (List.mergeSort_perm zs _).subset ha
    obtain ⟨i, hmem, hdec⟩ := mapE_mem h3 ha2
    obtain ⟨hin, hkeep⟩ := filterE_mem h1 hmem
    exact ⟨i, hin, keepItemAll_type hkeep, hdec⟩

/-- Witness for C2: a two-item shared collection holding one bug and one
activity log; the bug listing returns exactly the entity decoded from the
bug-tagged item. -/
theorem c2_type_discrimination_witness :
    ∃ i, i ∈ [({ autoId := some "i1", name := some "T",
                 description := .jsonObj [("type", .jstr "bug")],
                 created_at := .isoStr 1 } : RawItem),
               { autoId := some "i2", name := some "L",
                 description := .jsonObj [("type", .jstr "activity_log")],
                 created_at := .isoStr 2 }] ∧
      (∃ kvs, i.description = .jsonObj kvs ∧
        dictGet kvs "type" = some (.jstr "bug")) ∧
      BugRepository.collection_item_to_bug 0 i =
        .ok { id := some "i1", title := "T", description := "", projectId := "",
              reportedBy := "", assignedTo := none, status := "Open",
              priority := "Medium", severity := "Minor", tags := [],
              validated := false, createdAt := 1, updatedAt := 1 } :=
  c2_type_discrimination.1 0
    [{ autoId := some "i1", name := some "T",
       description := .jsonObj [("type", .jstr "bug")], created_at := .isoStr 1 },
     { autoId := some "i2", name := some "L",
       description := .jsonObj [("type", .jstr "activity_log")],
       created_at := .isoStr 2 }]
    none none none
    [{ id := some "i1", title := "T", description := "", projectId := "",
       reportedBy := "", assignedTo := none, status := "Open",
       priority := "Medium", severity := "Minor", tags := [],
       validated := false, createdAt := 1, updatedAt := 1 }]
    rfl _ (List.mem_singleton.mpr rfl)

/-- Counterexample for C3: list operations can surface a per-item decode
failure. An item whose description string parses to a non-object JSON value
makes BugRepository.get_all raise AttributeError at the data.get call, and an
item with a truthy non-string description makes CommentRepository
.get_by_bug_id raise TypeError at the unguarded json.loads call. -/
theorem c3_counterexample :
    BugRepository.get_all 0
        [{ autoId := some "x", name := some "n", description := .jsonNonObj,
           created_at := .absent }] none none none = .error .attributeError ∧
    CommentRepository.get_by_bug_id 0
        [{ autoId := some "y", name := some "n", description := .nonStr true,
           created_at := .absent }] "b" = .error .typeError := by
  exact ⟨rfl, rfl⟩

/-- C3 as amended: for every list operation (BugRepository.get_all,
CommentRepository.get_by_bug_id, ActivityLogRepository.get_by_bug_id/get_all)
and every store result in which each item is either skipped by the listing
loop (empty, absent, unparseable-string or falsy non-string description, or an
envelope of another kind or failing a filter) or a decodable item of the
target kind, the operation succeeds and yields exactly one decoded entity per
kept item: bad items are skipped, never surfaced. Items whose description
parses to a non-object JSON value raise AttributeError instead, and in the
comment/activity operations a truthy non-string description raises TypeError
(see the counterexample). -/
theorem c3_malformed_item_resilience :
    (∀ (now : Int) (items : List RawItem)
        (project_id status assigned_to : Option String),
        (∀ i ∈ items,
            BugRepository.keepItem project_id status assigned_to i = .ok false ∨
            (BugRepository.keepItem project_id status assigned_to i = .ok true ∧
             ∃ b, BugRepository.collection_item_to_bug now i = .ok b)) →
        ∃ l, BugRepository.get_all now items project_id status assigned_to = .ok l ∧
          l.length = items.countP
            (fun i => BugRepository.keepItem project_id status assigned_to i ==
              .ok true)) ∧
    (∀ (now : Int) (items : List RawItem) (bug_id : String),
        (∀ i ∈ items,
            CommentRepository.keepItem bug_id i = .ok false ∨
            (CommentRepository.keepItem bug_id i = .ok true ∧
             ∃ c, CommentRepository.collection_item_to_comment now i = .ok c)) →
        ∃ l, CommentRepository.get_by_bug_id now items bug_id = .ok l ∧
          l.length = items.countP
            (fun i => CommentRepository.keepItem bug_id i == .ok true)) ∧
    (∀ (now : Int) (items : List RawItem) (bug_id : String),
        (∀ i ∈ items,
            ActivityLogRepository.keepItemByBug bug_id i = .ok false ∨
            (ActivityLogRepository.keepItemByBug bug_id i = .ok true ∧
             ∃ a, ActivityLogRepository.collection_item_to_activity_log now i = .ok a)) →
        ∃ l, ActivityLogRepository.get_by_bug_id now items bug_id = .ok l ∧
          l.length = items.countP
            (fun i => ActivityLogRepository.keepItemByBug bug_id i == .ok true)) ∧
    (∀ (now : Int) (items : List RawItem),
        (∀ i ∈ items,
            ActivityLogRepository.keepItemAll i = .ok false ∨
            (ActivityLogRepository.keepItemAll i = .ok true ∧
             ∃ a, ActivityLogRepository.collection_item_to_activity_log now i = .ok a)) →
        ∃ l, ActivityLogRepository.get_all now items = .ok l ∧
          l.length = items.countP
            (fun i => ActivityLogRepository.keepItemAll i == .ok true)) := by
  refine ⟨?_, ?_, ?_, ?_⟩
  · intro now items project_id status assigned_to h
    obtain ⟨ys, zs, h1, h2, h3⟩ := filterE_mapE_ok items h
    refine ⟨zs, ?_, h3⟩
    simp only [BugRepository.get_all]
    rw [h1, exceptBind_ok]
    exact h2
  · intro now items bug_id h
    obtain ⟨ys, zs, h1, h2, h3⟩ := filterE_mapE_ok items h
    refine ⟨zs.mergeSort (fun a b => decide (a.createdAt ≤ b.createdAt)), ?_, ?_⟩
    · simp only [CommentRepository.get_by_bug_id]
      rw [h1, exceptBind_ok, h2, exceptBind_ok]
    · rw [(List.mergeSort_perm zs _).length_eq]
      exact h3
  · intro now items bug_id h
    obtain ⟨ys, zs, h1, h2, h3⟩ := filterE_mapE_ok items h
    refine ⟨zs.mergeSort (fun a b => decide (b.timestamp ≤ a.timestamp)), ?_, ?_⟩
    · simp only [ActivityLogRepository.get_by_bug_id]
      rw [h1, exceptBind_ok, h2, exceptBind_ok]
    · rw [(List.mergeSort_perm zs _).length_eq]
      exact h3
  · intro now items h
    obtain ⟨ys, zs, h1, h2, h3⟩ := filterE_mapE_ok items h
    refine ⟨zs.mergeSort (fun a b => decide (b.timestamp ≤ a.timestamp)), ?_, ?_⟩
    · simp only [ActivityLogRepository.get_all]
      rw [h1, exceptBind_ok, h2, exceptBind_ok]
    · rw [(List.mergeSort_perm zs _).length_eq]
      exact h3

/-- Witness for C3: a collection holding one unparseable item and one valid
bug yields a one-element bug listing. -/
theorem c3_malformed_item_resilience_witness :
    ∃ l, BugRepository.get_all 0
        [{ autoId := some "bad", name := some "n", description := .badStr,
           created_at := .absent },
         { autoId := some "i1", name := some "T",
           description := .jsonObj [("type", .jstr "bug")],
           created_at := .isoStr 1 }] none none none = .ok l ∧
      l.length =
        List.countP
          (fun i => BugRepository.keepItem none none none i == .ok true)
          [{ autoId := some "bad", name := some "n", description := .badStr,
             created_at := .absent },
           { autoId := some "i1", name := some "T",
             description := .jsonObj [("type", .jstr "bug")],
             created_at := .isoStr 1 }] :=
  c3_malformed_item_resilience.1 0
    [{ autoId := some "bad", name := some "n", description := .badStr,
       created_at := .absent },
     { autoId := some "i1", name := some "T",
       description := .jsonObj [("type", .jstr "bug")],
       created_at := .isoStr 1 }] none none none
    (by
      intro i hi
      rcases List.mem_cons.mp hi with rfl | hi
      · exact Or.inl rfl
      · rcases List.mem_cons.mp hi with rfl | hi
        · exact Or.inr ⟨rfl,
            ⟨{ id := some "i1", title := "T", description := "", projectId := "",
               reportedBy := "", assignedTo := none, status := "Open",
               priority := "Medium", severity := "Minor", tags := [],
               validated := false, createdAt := 1, updatedAt := 1 }, rfl⟩⟩
        · cases hi)

/-- Counterexample for C4: MalformedEnvelope is not the only decode error that
propagates on a single-item decode path. A description string that parses to a
non-object JSON value (here the item with id x) makes the decoder raise
AttributeError at the data.get call, a different error from the
MalformedEnvelope ValueError. -/
theorem c4_counterexample :
    BugRepository.collection_item_to_bug 0
        { autoId := some "x", name := some "n", description := .jsonNonObj,
          created_at := .absent } = .error .attributeError ∧
    Err.attributeError ≠ Err.malformedEnvelope (some "x") := by
  exact ⟨rfl, by decide⟩

/-- C4 as amended: on every single-item decode path, a description that is
present but not parseable JSON fails with the MalformedEnvelope error carrying
the offending item's id, and a missing optional/legacy field never makes the
decode fail (any JSON-object envelope decodes successfully); a description
parsing to a non-object JSON value instead fails with AttributeError (see the
counterexample), which is the only other decode error. -/
theorem c4_single_item_decode_errors :
    (∀ (now : Int) (item : RawItem),
        item.description = .badStr ∨ item.description = .emptyStr →
        BugRepository.collection_item_to_bug now item =
          .error (.malformedEnvelope item.autoId)) ∧
    (∀ (now : Int) (item : RawItem) (kvs : List (String × JVal)),
        item.description = .jsonObj kvs →
        ∃ b, BugRepository.collection_item_to_bug now item = .ok b) ∧
    (∀ (now : Int) (item : RawItem),
        item.description = .jsonNonObj →
        BugRepository.collection_item_to_bug now item = .error .attributeError) ∧
    (∀ (now : Int) (item : RawItem),
        item.description = .badStr ∨ item.description = .emptyStr →
        CommentRepository.collection_item_to_comment now item =
          .error (.malformedEnvelope item.autoId)) ∧
    (∀ (now : Int) (item : RawItem) (kvs : List (String × JVal)),
        item.description = .jsonObj kvs →
        ∃ c, CommentRepository.collection_item_to_comment now item = .ok c) ∧
    (∀ (now : Int) (item : RawItem),
        item.description = .jsonNonObj →
        CommentRepository.collection_item_to_comment now item =
          .error .attributeError) ∧
    (∀ (now : Int) (item : RawItem),
        item.description = .badStr ∨ item.description = .emptyStr →
        ActivityLogRepository.collection_item_to_activity_log now item =
          .error (.malformedEnvelope item.autoId)) ∧
    (∀ (now : Int) (item : RawItem) (kvs : List (String × JVal)),
        item.description = .jsonObj kvs →
        ∃ a, ActivityLogRepository.collection_item_to_activity_log now item = .ok a) ∧
    (∀ (now : Int) (item : RawItem),
        item.description = .jsonNonObj →
        ActivityLogRepository.collection_item_to_activity_log now item =
          .error .attributeError) := by
  refine ⟨?_, ?_, ?_, ?_, ?_, ?_, ?_, ?_, ?_⟩
  · intro now item h
    rcases h with h | h <;>
      simp [BugRepository.collection_item_to_bug, h, parseDescription,
        exceptBind_error]
  · intro now item kvs h
    simp only [BugRepository.collection_item_to_bug, h, parseDescription,
      exceptBind_ok]
    exact ⟨_, rfl⟩
  · intro now item h
    simp [BugRepository.collection_item_to_bug, h, parseDescription,
      exceptBind_error]
  · intro now item h
    rcases h with h | h <;>
      simp [CommentRepository.collection_item_to_comment, h, parseDescription,
        exceptBind_error]
  · intro now item kvs h
    simp only [CommentRepository.collection_item_to_comment, h, parseDescription,
      exceptBind_ok]
    exact ⟨_, rfl⟩
  · intro now item h
    simp [CommentRepository.collection_item_to_comment, h, parseDescription,
      exceptBind_error]
  · intro now item h
    rcases h with h | h <;>
      simp [ActivityLogRepository.collection_item_to_activity_log, h,
        parseDescription, exceptBind_error]
  · intro now item kvs h
    simp only [ActivityLogRepository.collection_item_to_activity_log, h,
      parseDescription, exceptBind_ok]
    exact ⟨_, rfl⟩
  · intro now item h
    simp [ActivityLogRepository.collection_item_to_activity_log, h,
      parseDescription, exceptBind_error]

/-- Witness for C4: the bug decoder fails with MalformedEnvelope carrying the
item id on an unparseable description, and succeeds on an empty JSON-object
envelope. -/
theorem c4_single_item_decode_errors_witness :
    BugRepository.collection_item_to_bug 0
        { autoId := some "w", name := some "n", description := .badStr,
          created_at := .absent } = .error (.malformedEnvelope (some "w")) ∧
    ∃ b, BugRepository.collection_item_to_bug 0
        { autoId := some "w2", name := some "n", description := .jsonObj [],
          created_at := .absent } = .ok b :=
  ⟨c4_single_item_decode_errors.1 0 _ (Or.inl rfl),
   c4_single_item_decode_errors.2.1 0 _ [] rfl⟩

/-- C5: every Bug update operation (update_status, update_assignment,
update_validation, update_fields) invoked with an id the store does not hold
fails with NotFound, leaves the store unchanged, and never calls the store
client's updateItem (the trace holds only the getItemById read). -/
theorem c5_update_notfound :
    (∀ (now : Int) (st : Store) (bug_id status : String) (t : Int),
        st.lookup bug_id = none →
        BugRepository.update_status now st bug_id status t =
          (.error (.notFound bug_id), st, [.getItemById bug_id])) ∧
    (∀ (now : Int) (st : Store) (bug_id assigned_to : String) (t : Int),
        st.lookup bug_id = none →
        BugRepository.update_assignment now st bug_id assigned_to t =
          (.error (.notFound bug_id), st, [.getItemById bug_id])) ∧
    (∀ (now : Int) (st : Store) (bug_id : String) (v : Bool) (t : Int),
        st.lookup bug_id = none →
        BugRepository.update_validation now st bug_id v t =
          (.error (.notFound bug_id), st, [.getItemById bug_id])) ∧
    (∀ (now : Int) (st : Store) (bug_id : String) (updates : List UpdEntry),
        updates ≠ [] →
        st.lookup bug_id = none →
        BugRepository.update_fields now st bug_id updates =
          (.error (.notFound bug_id), st, [.getItemById bug_id])) := by
  refine ⟨?_, ?_, ?_, ?_⟩
  · intro now st bug_id status t h
    simp only [BugRepository.update_status, h]
  · intro now st bug_id assigned_to t h
    simp only [BugRepository.update_assignment, h]
  · intro now st bug_id v t h
    simp only [BugRepository.update_validation, h]
  · intro now st bug_id updates hne h
    obtain ⟨u, us, rfl⟩ := List.exists_cons_of_ne_nil hne
    simp only [BugRepository.update_fields, h]

/-- Witness for C5: the four update operations on an empty store fail with
NotFound, leave the store empty and issue only the read call. -/
theorem c5_update_notfound_witness :
    BugRepository.update_status 0 [] "nope" "Closed" 5 =
      (.error (.notFound "nope"), [], [.getItemById "nope"]) ∧
    BugRepository.update_assignment 0 [] "nope" "u" 5 =
      (.error (.notFound "nope"), [], [.getItemById "nope"]) ∧
    BugRepository.update_validation 0 [] "nope" true 5 =
      (.error (.notFound "nope"), [], [.getItemById "nope"]) ∧
    BugRepository.update_fields 0 [] "nope" [.known (.status "Closed")] =
      (.error (.notFound "nope"), [], [.getItemById "nope"]) :=
  ⟨c5_update_notfound.1 0 [] "nope" "Closed" 5 rfl,
   c5_update_notfound.2.1 0 [] "nope" "u" 5 rfl,
   c5_update_notfound.2.2.1 0 [] "nope" true 5 rfl,
   c5_update_notfound.2.2.2 0 [] "nope" [.known (.status "Closed")]
     (List.cons_ne_nil _ _) rfl⟩

/-- C7: for every id and store state, the generic multi-field update called
with an empty update set fails with InvalidArgument before any store
interaction: the call trace is empty and the store state is unchanged. -/
theorem c7_empty_update_rejected :
    ∀ (now : Int) (st : Store) (bug_id : String),
      BugRepository.update_fields now st bug_id [] =
        (.error .invalidArgument, st, []) := by
  intro now st bug_id
  rfl

/-- Counterexample for C6: the updatedAt envelope value does not fall back to
the current time on ISO-8601 parse failure. Decoding with current time 99 an
item whose createdAt is the instant 5 and whose updatedAt is a non-ISO string
yields updatedAt 5 (the decoded createdAt), not 99. -/
theorem c6_counterexample :
    BugRepository.collection_item_to_bug 99
        { autoId := some "i", name := some "t",
          description := .jsonObj [("updatedAt", .jstr "garbage")],
          created_at := .isoStr 5 } =
      .ok { id := some "i", title := "t", description := "", projectId := "",
            reportedBy := "", assignedTo := none, status := "Open",
            priority := "Medium", severity := "Minor", tags := [],
            validated := false, createdAt := 5, updatedAt := 5 } ∧
    (5 : Int) ≠ 99 := by
  exact ⟨rfl, by decide⟩

/-- C6 as amended: decode never fails on a timestamp. For createdAt (and the
activity timestamp) read from the generic item, a string failing ISO-8601
parsing, or a value of an unexpected type, falls back to the current time
(UTC). For the JSON-encoded updatedAt, a value that is not a parseable
ISO-8601 string (bad string, unexpected type, or absent) falls back to the
decoded createdAt, not to the current time (see the counterexample). -/
theorem c6_timestamp_fallbacks :
    (∀ (now : Int) (id nm : Option String) (kvs : List (String × JVal))
        (tv : TimeVal), tv = .badStr ∨ tv = .other →
        ∃ b, BugRepository.collection_item_to_bug now
            { autoId := id, name := nm, description := .jsonObj kvs,
              created_at := tv } = .ok b ∧ b.createdAt = now) ∧
    (∀ (now : Int) (id nm : Option String) (kvs : List (String × JVal))
        (tv : TimeVal), tv = .badStr ∨ tv = .other →
        ∃ c, CommentRepository.collection_item_to_comment now
            { autoId := id, name := nm, description := .jsonObj kvs,
              created_at := tv } = .ok c ∧ c.createdAt = now) ∧
    (∀ (now : Int) (id nm : Option String) (kvs : List (String × JVal))
        (tv : TimeVal), tv = .badStr ∨ tv = .other →
        ∃ a, ActivityLogRepository.collection_item_to_activity_log now
            { autoId := id, name := nm, description := .jsonObj kvs,
              created_at := tv } = .ok a ∧ a.timestamp = now) ∧
    (∀ (now : Int) (id nm : Option String) (kvs : List (String × JVal))
        (tv : TimeVal) (v : JVal),
        dictGet kvs "updatedAt" = some v → (∀ t, v ≠ .jtime t) →
        ∃ b, BugRepository.collection_item_to_bug now
            { autoId := id, name := nm, description := .jsonObj kvs,
              created_at := tv } = .ok b ∧ b.updatedAt = b.createdAt) := by
  refine ⟨?_, ?_, ?_, ?_⟩
  · intro now id nm kvs tv h
    rcases h with rfl | rfl <;> exact ⟨_, rfl, rfl⟩
  · intro now id nm kvs tv h
    rcases h with rfl | rfl <;> exact ⟨_, rfl, rfl⟩
  · intro now id nm kvs tv h
    rcases h with rfl | rfl <;> exact ⟨_, rfl, rfl⟩
  · intro now id nm kvs tv v hv hne
    refine ⟨_, rfl, ?_⟩
    show parseUpdatedAt (parseCreatedAt now tv) (dictGet kvs "updatedAt") =
      parseCreatedAt now tv
    rw [hv]
    cases v with
    | jtime t => exact absurd rfl (hne t)
    | jnull => rfl
    | jbool b => rfl
    | jint n => rfl
    | jstr s => rfl
    | jstrList xs => rfl
    | jother => rfl

/-- Witness for C6: a bad-ISO created_at decodes to the current time 42, and a
bad-ISO updatedAt string decodes to the decoded createdAt. -/
theorem c6_timestamp_fallbacks_witness :
    (∃ b, BugRepository.collection_item_to_bug 42
        { autoId := some "i", name := some "t", description := .jsonObj [],
          created_at := .badStr } = .ok b ∧ b.createdAt = 42) ∧
    (∃ b, BugRepository.collection_item_to_bug 42
        { autoId := some "i", name := some "t",
          description := .jsonObj [("updatedAt", .jstr "oops")],
          created_at := .isoStr 7 } = .ok b ∧ b.updatedAt = b.createdAt) :=
  ⟨c6_timestamp_fallbacks.1 42 (some "i") (some "t") [] .badStr (Or.inl rfl),
   c6_timestamp_fallbacks.2.2.2 42 (some "i") (some "t")
     [("updatedAt", .jstr "oops")] (.isoStr 7) (.jstr "oops") rfl
     (fun t h => by cases h)⟩

theorem logDesc_trans (a b c : ActivityLog)
    (h1 : decide (b.timestamp ≤ a.timestamp) = true)
    (h2 : decide (c.timestamp ≤ b.timestamp) = true) :
    decide (c.timestamp ≤ a.timestamp) = true :=
  decide_eq_true (le_trans (of_decide_eq_true h2) (of_decide_eq_true h1))

theorem logDesc_total (a b : ActivityLog) :
    (decide (b.timestamp ≤ a.timestamp) || decide (a.timestamp ≤ b.timestamp)) = true := by
  rcases Int.le_total b.timestamp a.timestamp with h | h <;> simp [h]

theorem commentAsc_trans (a b c : Comment)
    (h1 : decide (a.createdAt ≤ b.createdAt) = true)
    (h2 : decide (b.createdAt ≤ c.createdAt) = true) :
    decide (a.createdAt ≤ c.createdAt) = true :=
  decide_eq_true (le_trans (of_decide_eq_true h1) (of_decide_eq_true h2))

theorem commentAsc_total (a b : Comment) :
    (decide (a.createdAt ≤ b.createdAt) || decide (b.createdAt ≤ a.createdAt)) = true := by
  rcases Int.le_total a.createdAt b.createdAt with h | h <;> simp [h]

/-- C8: for every store result in any order, ActivityLogRepository.get_all and
get_by_bug_id return entries sorted by timestamp descending (newest first),
and CommentRepository.get_by_bug_id returns comments sorted ascending by
creation time. -/
theorem c8_sort_order :
    (∀ (now : Int) (items : List RawItem) (l : List ActivityLog),
        ActivityLogRepository.get_all now items = .ok l →
        l.Pairwise (fun a b => b.timestamp ≤ a.timestamp)) ∧
    (∀ (now : Int) (items : List RawItem) (bug_id : String) (l : List ActivityLog),
        ActivityLogRepository.get_by_bug_id now items bug_id = .ok l →
        l.Pairwise (fun a b => b.timestamp ≤ a.timestamp)) ∧
    (∀ (now : Int) (items : List RawItem) (bug_id : String) (l : List Comment),
        CommentRepository.get_by_bug_id now items bug_id = .ok l →
        l.Pairwise (fun a b => a.createdAt ≤ b.createdAt)) := by
  refine ⟨?_, ?_, ?_⟩
  · intro now items l h
    simp only [ActivityLogRepository.get_all] at h
    obtain ⟨ys, h1, h2⟩ := exceptBind_eq_ok h
    obtain ⟨zs, h3, h4⟩ := exceptBind_eq_ok h2
    injection h4 with h4
    subst h4
    have hs : (zs.mergeSort (fun a b => decide (b.timestamp ≤ a.timestamp))).Pairwise
        (fun a b => decide (b.timestamp ≤ a.timestamp) = true) :=
      List.sorted_mergeSort logDesc_trans logDesc_total zs
    exact hs.imp (fun h => of_decide_eq_true h)
  · intro now items bug_id l h
    simp only [ActivityLogRepository.get_by_bug_id] at h
    obtain ⟨ys, h1, h2⟩ := exceptBind_eq_ok h
    obtain ⟨zs, h3, h4⟩ := exceptBind_eq_ok h2
    injection h4 with h4
    subst h4
    have hs : (zs.mergeSort (fun a b => decide (b.timestamp ≤ a.timestamp))).Pairwise
        (fun a b => decide (b.timestamp ≤ a.timestamp) = true) :=
      List.sorted_mergeSort logDesc_trans logDesc_total zs
    exact hs.imp (fun h => of_decide_eq_true h)
  · intro now items bug_id l h
    simp only [CommentRepository.get_by_bug_id] at h
    obtain ⟨ys, h1, h2⟩ := exceptBind_eq_ok h
    obtain ⟨zs, h3, h4⟩ := exceptBind_eq_ok h2
    injection h4 with h4
    subst h4
    have hs : (zs.mergeSort (fun a b => decide (a.createdAt ≤ b.createdAt))).Pairwise
        (fun a b => decide (a.createdAt ≤ b.createdAt) = true) :=
      List.sorted_mergeSort commentAsc_trans commentAsc_total zs
    exact hs.imp (fun h => of_decide_eq_true h)

unseal List.merge List.mergeSort in
/-- Witness for C8: a store result holding two activity-log items with
timestamps 1 and 5 in ascending order lists as newest first, and two comment
items fetched in descending creation order list as oldest first. -/
theorem c8_sort_order_witness :
    List.Pairwise (fun a b : ActivityLog => b.timestamp ≤ a.timestamp)
      [{ id := some "l5", bugId := "", bugTitle := "", projectId := "",
         projectName := "", action := "", performedBy := "",
         performedByName := "", assignedToName := none, newStatus := none,
         timestamp := 5 },
       { id := some "l1", bugId := "", bugTitle := "", projectId := "",
         projectName := "", action := "", performedBy := "",
         performedByName := "", assignedToName := none, newStatus := none,
         timestamp := 1 }] ∧
    List.Pairwise (fun a b : Comment => a.createdAt ≤ b.createdAt)
      [{ id := some "c1", bugId := "b", authorId := "", message := "",
         createdAt := 1 },
       { id := some "c5", bugId := "b", authorId := "", message := "",
         createdAt := 5 }] :=
  ⟨c8_sort_order.1 0
      [{ autoId := some "l1", name := some "A",
         description := .jsonObj [("type", .jstr "activity_log")],
         created_at := .isoStr 1 },
       { autoId := some "l5", name := some "A",
         description := .jsonObj [("type", .jstr "activity_log")],
         created_at := .isoStr 5 }]
      [{ id := some "l5", bugId := "", bugTitle := "", projectId := "",
         projectName := "", action := "", performedBy := "",
         performedByName := "", assignedToName := none, newStatus := none,
         timestamp := 5 },
       { id := some "l1", bugId := "", bugTitle := "", projectId := "",
         projectName := "", action := "", performedBy := "",
         performedByName := "", assignedToName := none, newStatus := none,
         timestamp := 1 }] (by rfl),
   c8_sort_order.2.2 0
      [{ autoId := some "c5", name := some "C",
         description := .jsonObj [("type", .jstr "comment"), ("bugId", .jstr "b")],
         created_at := .isoStr 5 },
       { autoId := some "c1", name := some "C",
         description := .jsonObj [("type", .jstr "comment"), ("bugId", .jstr "b")],
         created_at := .isoStr 1 }] "b"
      [{ id := some "c1", bugId := "b", authorId := "", message := "",
         createdAt := 1 },
       { id := some "c5", bugId := "b", authorId := "", message := "",
         createdAt := 5 }] (by rfl)⟩

/-- C9: every Bug update operation on an existing, decodable id sends the
store client a partial update holding exactly one field, the description (the
re-encoded full envelope); the name and created_at fields are never included,
and the re-encoded envelope is the encoding of the fetched entity with only
the updated aspect(s) and updatedAt changed (for update_fields this is made
explicit by the frame clause on untouched field names). -/
theorem c9_partial_update_shape :
    (∀ (now : Int) (st : Store) (bug_id status : String) (t : Int)
        (item : RawItem) (b : Bug),
        st.lookup bug_id = some item →
        BugRepository.collection_item_to_bug now item = .ok b →
        (BugRepository.update_status now st bug_id status t).2.2 =
          [.getItemById bug_id,
           .updateItem bug_id
             { name := none,
               description := some (.jsonObj (BugRepository.bugEnvelope
                 { b with status := status, updatedAt := t })),
               created_at := none }]) ∧
    (∀ (now : Int) (st : Store) (bug_id assigned_to : String) (t : Int)
        (item : RawItem) (b : Bug),
        st.lookup bug_id = some item →
        BugRepository.collection_item_to_bug now item = .ok b →
        (BugRepository.update_assignment now st bug_id assigned_to t).2.2 =
          [.getItemById bug_id,
           .updateItem bug_id
             { name := none,
               description := some (.jsonObj (BugRepository.bugEnvelope
                 { b with assignedTo := some assigned_to, updatedAt := t })),
               created_at := none }]) ∧
    (∀ (now : Int) (st : Store) (bug_id : String) (v : Bool) (t : Int)
        (item : RawItem) (b : Bug),
        st.lookup bug_id = some item →
        BugRepository.collection_item_to_bug now item = .ok b →
        (BugRepository.update_validation now st bug_id v t).2.2 =
          [.getItemById bug_id,
           .updateItem bug_id
             { name := none,
               description := some (.jsonObj (BugRepository.bugEnvelope
                 { b with validated := v, updatedAt := t })),
               created_at := none }]) ∧
    (∀ (now : Int) (st : Store) (bug_id : String) (us : List UpdEntry)
        (item : RawItem) (b : Bug),
        us ≠ [] →
        st.lookup bug_id = some item →
        BugRepository.collection_item_to_bug now item = .ok b →
        (BugRepository.update_fields now st bug_id us).2.2 =
          [.getItemById bug_id,
           .updateItem bug_id
             { name := none,
               description := some (.jsonObj (BugRepository.bugEnvelope
                 (applyBugUpdates b us))),
               created_at := none }] ∧
        ∀ f, f ∉ updNames us →
          (applyBugUpdates b us).fieldVal f = b.fieldVal f) := by
  refine ⟨?_, ?_, ?_, ?_⟩
  · intro now st bug_id status t item b hlook hdec
    simp only [BugRepository.update_status, hlook, hdec, storeUpdate,
      BugRepository.bug_to_collection_item]
  · intro now st bug_id assigned_to t item b hlook hdec
    simp only [BugRepository.update_assignment, hlook, hdec, storeUpdate,
      BugRepository.bug_to_collection_item]
  · intro now st bug_id v t item b hlook hdec
    simp only [BugRepository.update_validation, hlook, hdec, storeUpdate,
      BugRepository.bug_to_collection_item]
  · intro now st bug_id us item b hne hlook hdec
    obtain ⟨u, us2, rfl⟩ := List.exists_cons_of_ne_nil hne
    refine ⟨?_, fun f hf => applyBugUpdates_frame _ b f hf⟩
    simp only [BugRepository.update_fields, hlook, hdec, storeUpdate,
      BugRepository.bug_to_collection_item]

/-- Witness for C9: updating the status of a stored, decodable bug sends
exactly one updateItem call whose only field is the re-encoded description
envelope. -/
theorem c9_partial_update_shape_witness :
    (BugRepository.update_status 0
        [("B1", { autoId := some "B1", name := some "T",
                  description := .jsonObj [("type", .jstr "bug")],
                  created_at := .isoStr 1 })] "B1" "Closed" 9).2.2 =
      [.getItemById "B1",
       .updateItem "B1"
         { name := none,
           description := some (.jsonObj (BugRepository.bugEnvelope
             { id := some "B1", title := "T", description := "",
               projectId := "", reportedBy := "", assignedTo := none,
               status := "Closed", priority := "Medium", severity := "Minor",
               tags := [], validated := false, createdAt := 1,
               updatedAt := 9 })),
           created_at := none }] :=
  c9_partial_update_shape.1 0
    [("B1", { autoId := some "B1", name := some "T",
              description := .jsonObj [("type", .jstr "bug")],
              created_at := .isoStr 1 })] "B1" "Closed" 9
    { autoId := some "B1", name := some "T",
      description := .jsonObj [("type", .jstr "bug")],
      created_at := .isoStr 1 }
    { id := some "B1", title := "T", description := "", projectId := "",
      reportedBy := "", assignedTo := none, status := "Open",
      priority := "Medium", severity := "Minor", tags := [],
      validated := false, createdAt := 1, updatedAt := 1 }
    rfl rfl

/-- C10: on a single-item decode path, an item whose description is present
but not a string decodes without failing into an entity whose
envelope-derived fields all take their per-field defaults: empty strings, the
kind's initial status, empty tags, validated false, absent optional fields,
and updatedAt equal to the decoded createdAt. -/
theorem c10_nonstring_description_defaults :
    (∀ (now : Int) (id nm : Option String) (tv : TimeVal) (tr : Bool),
        BugRepository.collection_item_to_bug now
          { autoId := id, name := nm, description := .nonStr tr,
            created_at := tv } =
          .ok { id := id, title := nm.getD "", description := "",
                projectId := "", reportedBy := "", assignedTo := none,
                status := "Open", priority := "Medium", severity := "Minor",
                tags := [], validated := false,
                createdAt := parseCreatedAt now tv,
                updatedAt := parseCreatedAt now tv }) ∧
    (∀ (now : Int) (id nm : Option String) (tv : TimeVal) (tr : Bool),
        CommentRepository.collection_item_to_comment now
          { autoId := id, name := nm, description := .nonStr tr,
            created_at := tv } =
          .ok { id := id, bugId := "", authorId := "", message := "",
                createdAt := parseCreatedAt now tv }) ∧
    (∀ (now : Int) (id nm : Option String) (tv : TimeVal) (tr : Bool),
        ActivityLogRepository.collection_item_to_activity_log now
          { autoId := id, name := nm, description := .nonStr tr,
            created_at := tv } =
          .ok { id := id, bugId := "", bugTitle := "", projectId := "",
                projectName := "", action := "", performedBy := "",
                performedByName := "", assignedToName := none,
                newStatus := none, timestamp := parseCreatedAt now tv }) := by
  refine ⟨?_, ?_, ?_⟩ <;> intro now id nm tv tr <;> rfl

